import Mathlib

/-!
Verification development for the antd theme-generation library
(`src/lib/antd-theme-generator.js`).  The JavaScript source is shallowly
embedded: every definition below is translated from a concrete place in the
source file (referenced by line numbers in the doc comments).  JavaScript
strings are modelled as `List Char` / `String`, JavaScript objects used as
string maps are modelled as insertion-ordered association lists, and the
regular expressions appearing in the source are modelled by a small
backtracking matcher (`reM`) with JavaScript semantics: leftmost match,
ordered alternation, greedy character-class repetition, capture groups and
zero-width lookahead.  All repetitions occurring in the source's regexes are
repetitions of single-character classes, so the matcher is structurally
recursive.
-/

namespace AntdTheme

/-- The character classes used by JavaScript `\s` (whitespace); the source only
ever feeds ASCII text to them, so the ASCII subset is modelled. -/
def isJsSpace (c : Char) : Bool :=
  c == ' ' || c == '\t' || c == '\n' || c == '\r' || c == '\x0b' || c == '\x0c'

/-- JavaScript `.` in a regex: any character except a line terminator. -/
def isDotChar (c : Char) : Bool :=
  !(c == '\n' || c == '\r')

/-- Match a literal list of characters against the head of `s`; on success
return the remaining suffix. -/
def litMatch : List Char → List Char → Option (List Char)
  | [], s => some s
  | _ :: _, [] => none
  | p :: ps, c :: cs => if p = c then litMatch ps cs else none

/-- Whether `sub` occurs as a contiguous substring (JavaScript
`String.prototype.includes`, also the truthiness of `s.match(/sub/g)` for a
literal pattern). -/
def containsL (sub : List Char) : List Char → Bool
  | [] => (litMatch sub []).isSome
  | c :: cs => (litMatch sub (c :: cs)).isSome || containsL sub cs

/-- JavaScript `String.prototype.startsWith` for a literal. -/
def startsWithL (pre s : List Char) : Bool :=
  (litMatch pre s).isSome

/-- Build a `String` back from a character list. -/
def chStr (cs : List Char) : String := String.mk cs

/-- Capture-group store of a regex match (JavaScript overwrite semantics:
the most recent assignment to a group index wins). -/
def Caps := List (Nat × List Char)

def capSet (caps : Caps) (i : Nat) (v : List Char) : Caps := (i, v) :: caps

def capGet (caps : Caps) (i : Nat) : Option (List Char) :=
  match caps with
  | [] => none
  | (j, v) :: rest => if j = i then some v else capGet rest i

/-- Regular expressions as they occur in the source.  Every repetition in the
source's patterns is over a one-character class, which `starCls` captures; all
other constructs are literals, sequencing, ordered alternation, capture groups
and one zero-width lookahead. -/
inductive Re where
  | eps : Re
  | cls : (Char → Bool) → Re
  | lit : List Char → Re
  | seq : Re → Re → Re
  | alt : Re → Re → Re
  | starCls : (Char → Bool) → Re
  | grp : Nat → Re → Re
  | look : Re → Re

/-- Length of the maximal run of characters satisfying `p` at the head of the
input (the most a greedy `p*` can consume). -/
def clsRunLen (p : Char → Bool) : List Char → Nat
  | [] => 0
  | c :: cs => if p c then clsRunLen p cs + 1 else 0

/-- Greedy repetition: try consuming `n` characters first, then backtrack to
shorter prefixes, finally the empty one. -/
def tryDropsDesc (s : List Char) (caps : Caps)
    (k : List Char → Caps → Option (Caps × List Char)) : Nat → Option (Caps × List Char)
  | 0 => k s caps
  | n + 1 =>
    match k (s.drop (n + 1)) caps with
    | some r => some r
    | none => tryDropsDesc s caps k n

/-- Backtracking regex matcher in continuation-passing style.  `reM r s caps k`
tries to match `r` against a prefix of `s`, feeding the suffix and updated
captures to `k`; alternatives are tried in JavaScript order (left alternative
first, greedy repetition longest-first), so the first overall success is the
JavaScript match. -/
def reM : Re → List Char → Caps → (List Char → Caps → Option (Caps × List Char)) →
    Option (Caps × List Char)
  | .eps, s, caps, k => k s caps
  | .cls p, s, caps, k =>
    match s with
    | [] => none
    | c :: cs => if p c then k cs caps else none
  | .lit l, s, caps, k =>
    match litMatch l s with
    | some rest => k rest caps
    | none => none
  | .seq a b, s, caps, k => reM a s caps (fun s2 caps2 => reM b s2 caps2 k)
  | .alt a b, s, caps, k =>
    match reM a s caps k with
    | some r => some r
    | none => reM b s caps k
  | .starCls p, s, caps, k => tryDropsDesc s caps k (clsRunLen p s)
  | .grp i a, s, caps, k =>
    reM a s caps (fun s2 caps2 => k s2 (capSet caps2 i (s.take (s.length - s2.length))))
  | .look a, s, caps, k =>
    match reM a s caps (fun rest2 caps2 => some (caps2, rest2)) with
    | some (caps2, _) => k s caps2
    | none => none

/-- Run the matcher anchored at the current position; on success return the
captures and the unconsumed suffix. -/
def reRunAt (re : Re) (s : List Char) : Option (Caps × List Char) :=
  reM re s [] (fun rest caps => some (caps, rest))

/-- JavaScript unanchored search: try each start position from the left; the
result carries the captures, the matched text and the suffix after the match. -/
def reSearchCore (re : Re) : List Char → Option (Caps × List Char × List Char)
  | [] =>
    match reRunAt re [] with
    | some (caps, rest) => some (caps, [], rest)
    | none => none
  | c :: cs =>
    match reRunAt re (c :: cs) with
    | some (caps, rest) =>
      some (caps, (c :: cs).take ((c :: cs).length - rest.length), rest)
    | none => reSearchCore re cs

/-- JavaScript `regex.test(s)` / truthiness of `s.match(regex)`. -/
def reTest (re : Re) (s : List Char) : Bool :=
  (reSearchCore re s).isSome

/-- All successive matches of a global regex (`String.prototype.match` with the
`g` flag): full match texts, each search resuming after the previous match
(advancing one position on an empty match).  The fuel is bounded by the input
length plus one, which suffices because every step consumes input. -/
def reAllAux (re : Re) : Nat → List Char → List (List Char)
  | 0, _ => []
  | fuel + 1, s =>
    match reSearchCore re s with
    | none => []
    | some (_, matched, rest) =>
      if matched.isEmpty then
        match rest with
        | [] => [matched]
        | _ :: rs => matched :: reAllAux re fuel rs
      else matched :: reAllAux re fuel rest

def reAll (re : Re) (s : List Char) : List (List Char) :=
  reAllAux re (s.length + 1) s

/-! Insertion-ordered association lists, modelling plain JavaScript objects
used as string-keyed maps (property insertion order is preserved; overwriting
keeps the original position). -/

/-- JavaScript property read `m[k]` (first, and only, binding of `k`). -/
def alookup (k : String) : List (String × String) → Option String
  | [] => none
  | (a, b) :: rest => if a = k then some b else alookup k rest

/-- JavaScript property write `m[k] = v`. -/
def aset (m : List (String × String)) (k v : String) : List (String × String) :=
  match m with
  | [] => [(k, v)]
  | (a, b) :: rest => if a = k then (a, v) :: rest else (a, b) :: aset rest k v

/-- JavaScript `content.split("\n")` (keeps empty segments). -/
def splitOnNl : List Char → List (List Char)
  | [] => [[]]
  | c :: rest =>
    if c == '\n' then [] :: splitOnNl rest
    else
      match splitOnNl rest with
      | [] => [[c]]
      | seg :: segs => (c :: seg) :: segs

/-- JavaScript `s.split(":")` (used below to model the regex split `:\s*`). -/
def splitOnColon : List Char → List (List Char)
  | [] => [[]]
  | c :: rest =>
    if c == ':' then [] :: splitOnColon rest
    else
      match splitOnColon rest with
      | [] => [[c]]
      | seg :: segs => (c :: seg) :: segs

/-- JavaScript `s.split(/:\s*/)`: the separator is a colon together with the
greedy run of whitespace following it, which equals splitting on `:` and then
stripping leading whitespace from every later segment (whitespace never
contains a colon). -/
def splitColonWs (s : List Char) : List (List Char) :=
  match splitOnColon s with
  | [] => []
  | first :: rest => first :: rest.map (fun seg => seg.dropWhile isJsSpace)

/-- JavaScript `s.replace(/['"]+/g, "")`: delete every quote character. -/
def removeQuotesL (s : List Char) : List Char :=
  s.filter (fun c => !(c == Char.ofNat 39 || c == '"'))

/-- JavaScript `String.prototype.trim` (ASCII whitespace). -/
def trimL (s : List Char) : List Char :=
  ((s.dropWhile isJsSpace).reverse.dropWhile isJsSpace).reverse

/-- JavaScript `s.replace(pat, repl)` with a plain-string pattern: replace the
first occurrence only (`pat` is nonempty at every call site). -/
def replaceFirstL (pat repl : List Char) : List Char → List Char
  | [] => []
  | c :: rest =>
    match litMatch pat (c :: rest) with
    | some r => repl ++ r
    | none => c :: replaceFirstL pat repl rest

/-! The concrete regular expressions of the source. -/

/-- Character admitted by the class `[@a-zA-Z0-9'-]` of the variable-line
regex (line 67). -/
def isVarNameChar (c : Char) : Bool :=
  c == '@' || c.isAlpha || c.isDigit || c == Char.ofNat 39 || c == '-'

/-- Character admitted by the lookahead target class `['-]` (line 67). -/
def isQuoteOrDash (c : Char) : Bool :=
  c == Char.ofNat 39 || c == '-'

/-- The regex `/(?=\S*['-])([@a-zA-Z0-9'-]+).*:[ ]{1,}(.*);/` of
`generateColorMap` (line 67): a lookahead requiring a quote or hyphen inside
the non-whitespace run at the match position, a captured variable name, a
colon, at least one space, and a captured value up to a semicolon. -/
def varLineRe : Re :=
  .seq (.look (.seq (.starCls (fun c => !(isJsSpace c))) (.cls isQuoteOrDash)))
    (.seq (.grp 1 (.seq (.cls isVarNameChar) (.starCls isVarNameChar)))
      (.seq (.starCls isDotChar)
        (.seq (.lit [':'])
          (.seq (.cls (fun c => c == ' '))
            (.seq (.starCls (fun c => c == ' '))
              (.seq (.grp 2 (.starCls isDotChar)) (.lit [';'])))))))

/-- The regex `/@(.*:[^;]*)/g` of `getLessVars` (line 210).  Note `[^;]` is a
negated class, which in JavaScript also matches line terminators. -/
def lessVarRe : Re :=
  .seq (.lit ['@'])
    (.grp 1 (.seq (.starCls isDotChar)
      (.seq (.lit [':']) (.starCls (fun c => !(c == ';'))))))

/-- The regex `/(.*)-(\d)/` of `getShade` (line 227): greedy prefix, a hyphen,
and a single captured digit. -/
def shadeRe : Re :=
  .seq (.grp 1 (.starCls isDotChar)) (.seq (.lit ['-']) (.grp 2 (.cls Char.isDigit)))

/-- The regex `/primary-\d/` of `getShade` (line 228). -/
def primaryShadeRe : Re :=
  .seq (.lit "primary-".data) (.cls Char.isDigit)

/-- Case-insensitive literal (the `/i` flag of the color-form regex). -/
def ciLit (s : String) : Re :=
  s.data.foldr (fun c acc => Re.seq (.cls (fun x => x.toLower == c.toLower)) acc) .eps

/-- Ordered alternation over a list; an empty list never matches. -/
def altList : List Re → Re
  | [] => .cls (fun _ => false)
  | [r] => r
  | r :: rest => .alt r (altList rest)

/-- Greedy `?`. -/
def optRe (r : Re) : Re := .alt r .eps

/-- One component `\d+%?(deg|rad|grad|turn)?[,\s]+` of the color-form regex
(line 257). -/
def hslComponent : Re :=
  .seq (.seq (.cls Char.isDigit) (.starCls Char.isDigit))
    (.seq (optRe (.lit ['%']))
      (.seq (optRe (altList [ciLit "deg", ciLit "rad", ciLit "grad", ciLit "turn"]))
        (.seq (.cls (fun c => c == ',' || isJsSpace c))
          (.starCls (fun c => c == ',' || isJsSpace c)))))

/-- The anchored color-form regex
`/^(rgb|hsl|hsv)a?\((\d+%?(deg|rad|grad|turn)?[,\s]+){2,3}[\s\/]*[\d\.]+%?\)$/i`
of `isValidColor` (line 257). -/
def hslRe : Re :=
  .seq (.grp 1 (altList [ciLit "rgb", ciLit "hsl", ciLit "hsv"]))
    (.seq (optRe (ciLit "a"))
      (.seq (.lit ['('])
        (.seq (.seq (.grp 2 hslComponent) (.seq (.grp 2 hslComponent) (optRe (.grp 2 hslComponent))))
          (.seq (.starCls (fun c => isJsSpace c || c == '/'))
            (.seq (.seq (.cls (fun c => c.isDigit || c == '.'))
                (.starCls (fun c => c.isDigit || c == '.')))
              (.seq (optRe (.lit ['%'])) (.lit [')'])))))))

/-- Anchored test of the color-form regex (`^...$`: the whole string). -/
def hslTest (s : List Char) : Bool :=
  (reM hslRe s [] (fun rest caps => if rest.isEmpty then some (caps, rest) else none)).isSome

/-! The color classifier `isValidColor` (lines 246-268). -/

/-- A hexadecimal digit, as accepted by `parseInt(_, 16)`. -/
def isHexDigit (c : Char) : Bool :=
  c.isDigit || (('a' ≤ c.toLower) && (c.toLower ≤ 'f'))

/-- Whether JavaScript `parseInt(s, 16)` yields `NaN` (line 253): after
skipping leading whitespace, an optional single sign and an optional `0x`/`0X`
prefix, `parseInt` parses the longest run of hex digits and is `NaN` exactly
when that run is empty. -/
def parseInt16IsNaNL (s : List Char) : Bool :=
  let s1 := s.dropWhile isJsSpace
  let s2 :=
    match s1 with
    | c :: rest => if c == '+' || c == '-' then rest else s1
    | [] => []
  let s3 :=
    match s2 with
    | c1 :: c2 :: rest => if c1 == '0' && (c2 == 'x' || c2 == 'X') then rest else s2
    | _ => s2
  match s3 with
  | [] => true
  | c :: _ => !(isHexDigit c)

/-- The classifier `isValidColor(color, customColorRegexArray)`
(lines 246-268).  `none` models a JavaScript `undefined` argument; the extra
patterns are modelled as opaque predicates (`regex.test`).  The branch order
follows the source: the `rgb` substring shortcut, the falsy/`px` rejection,
the `colorPalette|fade` shortcut, the hex branch (which returns without
consulting the extra patterns), the anchored color-form regex, and finally the
caller-supplied patterns. -/
def isValidColor (color : Option String) (customColorRegexArray : List (String → Bool)) : Bool :=
  match color with
  | none => false
  | some c =>
    if containsL "rgb".data c.data then true
    else if c.data.isEmpty then false
    else if containsL "px".data c.data then false
    else if containsL "colorPalette".data c.data || containsL "fade".data c.data then true
    else
      match c.data with
      | '#' :: rest => [3, 4, 6, 8].contains rest.length && !(parseInt16IsNaNL rest)
      | _ =>
        if hslTest c.data then true
        else if customColorRegexArray.length > 0 then
          customColorRegexArray.foldl (fun prev regex => prev || regex c) false
        else false

/-! The recursive alias resolver `getColor` (lines 34-41). -/

/-- Fuel-indexed embedding of `getColor(varName, mappings)` (lines 34-41):
`color = mappings[varName]; if (color in mappings) return getColor(color,
mappings); return color`.  The outer `none` means the fuel ran out (the
JavaScript recursion would not have returned yet); the inner `Option` is the
returned value, `none` standing for `undefined` when `varName` is not a key
(the map never uses the literal key "undefined"). -/
def getColorF (fuel : Nat) (varName : String) (mappings : List (String × String)) :
    Option (Option String) :=
  match fuel with
  | 0 => none
  | fuel + 1 =>
    match alookup varName mappings with
    | none => some none
    | some color =>
      if (alookup color mappings).isSome then getColorF fuel color mappings
      else some (some color)

/-- `n`-fold reference chain: follow `v -> mappings[v]` for `n` steps,
undefined (`none`) as soon as a name is absent. -/
def iterChain (m : List (String × String)) : Nat → String → Option String
  | 0, v => some v
  | n + 1, v =>
    match alookup v m with
    | some c => iterChain m n c
    | none => none

/-- Acyclicity of the variable-reference chains of a mapping: no name reaches
itself in a positive number of steps. -/
def AcyclicMap (m : List (String × String)) : Prop :=
  ∀ v n, 0 < n → iterChain m n v ≠ some v

/-! The variable collector: `generateColorMap` (lines 60-88) and
`getLessVars` (lines 206-218). -/

/-- `generateColorMap(content, customColorRegexArray)` (lines 60-88): split
into lines, keep lines starting with `@` and containing `:`, extract
`(name, value)` with `varLineRe`, resolve values that are themselves variable
references through the partially built map, and keep only values accepted by
`isValidColor`.  The fuel handed to `getColorF` exceeds any acyclic chain
length; on exhaustion (a cyclic input, where the JavaScript recursion would
blow the stack and be caught at line 83) the line is skipped. -/
def generateColorMap (content : String) (customColorRegexArray : List (String → Bool)) :
    List (String × String) :=
  (((splitOnNl content.data).filter
      (fun line => startsWithL "@".data line && containsL ":".data line)).foldl
    (fun prev next =>
      match reSearchCore varLineRe next with
      | none => prev
      | some (caps, _, _) =>
        let varName := chStr ((capGet caps 1).getD [])
        let color := chStr ((capGet caps 2).getD [])
        if startsWithL "@".data color.data then
          match getColorF (prev.length + 2) color prev with
          | none => prev
          | some resolved =>
            if isValidColor resolved customColorRegexArray then
              match resolved with
              | some r => aset prev varName r
              | none => prev
            else prev
        else if isValidColor (some color) customColorRegexArray then aset prev varName color
        else prev)
    [])

/-- `getLessVars` (lines 206-218) with the file read abstracted to the file's
content: collect every match of `lessVarRe`, split each on `:` plus following
whitespace, strip quotes and trim the name, and rejoin the remaining segments
with `:` as the value. -/
def getLessVars (sheet : String) : List (String × String) :=
  (reAll lessVarRe sheet.data).foldl
    (fun lessVars entry =>
      let definition := splitColonWs entry
      let varName := chStr (trimL (removeQuotesL (definition.headD [])))
      let value := chStr (List.intercalate ":".data (definition.drop 1))
      aset lessVars varName value)
    []

/-! The shade-rule emitter: `getShade` (lines 226-236) and the marker loop of
`generateTheme` (lines 497-509). -/

/-- `getShade(varName)` (lines 226-236): capture `(.*)-(\d)`, redirect to
`@primary-color` when `/primary-\d/` matches, and build the `colorPalette`
ramp expression.  A non-matching argument would make the JavaScript
destructuring throw; callers only pass shade-indexed names, and that case is
mapped to the empty string here. -/
def getShade (varName : String) : String :=
  match reSearchCore shadeRe varName.data with
  | none => ""
  | some (caps, _, _) =>
    let className := chStr ((capGet caps 1).getD [])
    let number := chStr ((capGet caps 2).getD [])
    let className := if reTest primaryShadeRe varName.data then "@primary-color" else className
    chStr ("color(~`colorPalette(\"@\x7b".data ++
      (replaceFirstL "@".data [] className.data ++
        ("\x7d\", ".data ++ (number.data ++ ")`)".data))))

/-- The shade indices `[1, 2, 3, 4, 5, 7, 8, 9, 10]` of line 499. -/
def shadeKeys : List Nat := [1, 2, 3, 4, 5, 7, 8, 9, 10]

/-- The shade-indexed name built at lines 500-503. -/
def shadeName (varName : String) (key : Nat) : String :=
  if varName == "@primary-color" then "@primary-" ++ toString key
  else varName ++ "-" ++ toString key

/-- The nine shade-marker rules emitted for one theme variable (lines
498-507), as `(class name, declared value)` pairs: the rule text is
`.<name without @> { color: <getShade name>; }`.  (The source prepends each
rule to an accumulator, so they appear in reverse order in the generated
less source; the emitted set is what matters here.) -/
def shadeRules (varName : String) : List (String × String) :=
  shadeKeys.map (fun key =>
    let name := shadeName varName key
    (chStr (replaceFirstL "@".data [] name.data), getShade name))

/-- Modelled from the spec: "a color-ramp expression that asks the compiler to
synthesize the Nth shade of the base variable via a library-provided
color-manipulation function" — the `colorPalette` expression with index `n`.
Used only to compare the output of `getShade` against the spec's description. -/
def specShadeExpr (className : String) (n : Nat) : String :=
  "color(~`colorPalette(\"@\x7b" ++ className ++ "\x7d\", " ++ toString n ++ ")`)"

/-! The declaration pruner `reducePlugin` (lines 108-164).  The compiled CSS a
postcss plugin walks is modelled as a flat list of nodes: at-rules (removed
wholesale with everything nested in them, line 156-158), style rules carrying
a selector and a declaration list, and comments (the source removes comments
wherever they occur; the model carries them as sibling nodes). -/

inductive Node where
  | atRule (text : String) : Node
  | rule (selector : String) (decls : List (String × String)) : Node
  | comment (text : String) : Node
deriving DecidableEq

/-- The value test `String(decl.value).match(/url\(.*\))/g` (line 117): the
text `url(` followed, with no line terminator in between, by a closing
parenthesis. -/
def closeParenNoNl : List Char → Bool
  | [] => false
  | c :: rest =>
    if c == ')' then true
    else if c == '\n' || c == '\r' then false
    else closeParenNoNl rest

def urlMatchL : List Char → Bool
  | [] => false
  | c :: rest =>
    (match litMatch "url(".data (c :: rest) with
     | some r => closeParenNoNl r
     | none => false) || urlMatchL rest

/-- The property filter of lines 137-142: the property name contains one of
the four theme-relevant fragments. -/
def colorRelated (prop : String) : Bool :=
  containsL "color".data prop.data || containsL "background".data prop.data ||
    containsL "border".data prop.data || containsL "box-shadow".data prop.data

/-- JavaScript `Number.isNaN(decl.value)` (line 142): `decl.value` is a postcss
string and `Number.isNaN` performs no coercion, so the test is always false. -/
def numberIsNaN (_value : String) : Bool := false

/-- One left-to-right `walkDecls` pass of `cleanRule` (lines 116-149) over a
rule's declarations, returning the surviving declarations together with the
final `removeRule` flag.  A declaration whose value matches `url(...)` is
removed (line 117-119); a declaration whose property is not color-related and
whose value is not `NaN` is removed (lines 137-145); otherwise the `else`
branch clears `removeRule` (line 147) — note that this branch is reached even
for a declaration already removed by the `url(...)` check. -/
def cleanDecls : List (String × String) → List (String × String) × Bool
  | [] => ([], true)
  | d :: ds =>
    let r := cleanDecls ds
    let urlRemoved := urlMatchL d.2.data
    let propBad := !(colorRelated d.1) && !(numberIsNaN d.2)
    ((if !urlRemoved && !propBad then d :: r.1 else r.1),
     (if propBad then r.2 else false))

/-- `cleanRule` (lines 109-153) on a single node: palette-probe rules (selector
starting with `.main-color .palatte-`) are dropped, otherwise the declaration
pass runs and the rule is dropped when `removeRule` survived as `true`. -/
def cleanRule (n : Node) : List Node :=
  match n with
  | .rule sel ds =>
    if startsWithL ".main-color .palatte-".data sel.data then []
    else
      let r := cleanDecls ds
      if r.2 then [] else [.rule sel r.1]
  | other => [other]

def isAtRule : Node → Bool
  | .atRule _ => true
  | _ => false

def isComment : Node → Bool
  | .comment _ => true
  | _ => false

def concatMapNodes (f : Node → List Node) : List Node → List Node
  | [] => []
  | n :: rest => f n ++ concatMapNodes f rest

/-- The whole `reducePlugin` pass (lines 155-163): remove every at-rule, run
`cleanRule` over every style rule, then remove every comment. -/
def reduceCss (css : List Node) : List Node :=
  (concatMapNodes cleanRule (css.filter (fun n => !(isAtRule n)))).filter
    (fun n => !(isComment n))

/-- Per-node form of `reduceCss`, used to factor the idempotence proof. -/
def reduceNode (n : Node) : List Node :=
  match n with
  | .atRule _ => []
  | .comment _ => []
  | .rule sel ds =>
    if startsWithL ".main-color .palatte-".data sel.data then []
    else
      let r := cleanDecls ds
      if r.2 then [] else [.rule sel r.1]

def reduceNodes : List Node → List Node
  | [] => []
  | n :: rest => reduceNode n ++ reduceNodes rest

/-! The random-marker assignment loop of `generateTheme` (lines 474-495). -/

/-- The sentinel reserved for `@primary-color` (line 474). -/
def PRIMARY_RANDOM_COLOR : String := "#123456"

/-- The `while` condition of lines 483-488: re-roll when the drawn color is
the primary sentinel *and* already assigned, or is pure black or pure white.
`randomColorsVars` is the color-to-variable reverse map; a defined entry is a
nonempty variable name, hence truthy. -/
def badDraw (randomColorsVars : List (String × String)) (color : String) : Bool :=
  ((alookup color randomColorsVars).isSome && color == PRIMARY_RANDOM_COLOR) ||
    color == "#000000" || color == "#ffffff"

/-- The draw/re-roll loop for one non-primary variable: consume draws from the
supplied stream of `randomColor()` outputs while `badDraw` holds.  `none`
means the supplied draw list ran out (the JavaScript loop would keep
drawing). -/
def pickColor (randomColorsVars : List (String × String)) :
    List String → Option (String × List String)
  | [] => none
  | c :: rest =>
    if badDraw randomColorsVars c then pickColor randomColorsVars rest
    else some (c, rest)

/-- The marker-assignment loop (lines 478-495) over the filtered theme
variables, threading the forward map `randomColors`, the reverse map
`randomColorsVars` and the stream of random draws.  `@primary-color` always
receives the sentinel (line 480-481, after consuming the draw of line 479);
every other variable receives the first draw surviving `badDraw`. -/
def assignMarkers : List String → List String → List (String × String) →
    List (String × String) → Option (List (String × String) × List (String × String))
  | [], _, randomColors, randomColorsVars => some (randomColors, randomColorsVars)
  | varName :: vs, draws, randomColors, randomColorsVars =>
    match draws with
    | [] => none
    | c0 :: rest =>
      if varName == "@primary-color" then
        assignMarkers vs rest (aset randomColors varName PRIMARY_RANDOM_COLOR)
          (aset randomColorsVars PRIMARY_RANDOM_COLOR varName)
      else
        match pickColor randomColorsVars (c0 :: rest) with
        | none => none
        | some (color, rest2) =>
          assignMarkers vs rest2 (aset randomColors varName color)
            (aset randomColorsVars color varName)

/-- Predicate for the amended collision-avoidance claim: an assignment maps no
variable to pure black or pure white. -/
def noBlackWhite (p : String × String) : Bool :=
  !(p.2 == "#000000") && !(p.2 == "#ffffff")

/-! The cache discipline and failure boundary of `generateTheme`
(lines 365-642). -/

/-- The process-wide cache (lines 14-15): the content hash of the last seen
consumer stylesheets and the last produced stylesheet text. -/
structure GenCache where
  hashCache : String
  cssCache : String
deriving DecidableEq

/-- Where a `generateTheme` run can end: a throw before the content hash is
computed (lines 374-415, e.g. a failing style-file read), a throw after the
cache was keyed (lines 424-634), or success with the produced stylesheet. -/
inductive StageResult where
  | earlyFail : StageResult
  | lateFail : StageResult
  | ok (css : String) : StageResult
deriving DecidableEq

/-- Control-flow skeleton of `generateTheme` with respect to the cache and the
returned value (lines 373, 416-423, 636-641): the whole body is wrapped in
`try`/`catch`, the `catch` logs and returns `""`; on a hash match the cached
stylesheet is returned before any compilation; otherwise `hashCache` is
updated immediately (line 423), the pipeline runs, and only on success is
`cssCache` updated (line 636).  The result triple is the cache after the
call, the returned string, and whether the compilation pipeline beyond the
cache check ran. -/
def generateThemeStep (cache : GenCache) (hashCode : String) (stage : StageResult) :
    GenCache × String × Bool :=
  match stage with
  | .earlyFail => (cache, "", false)
  | .lateFail =>
    if hashCode == cache.hashCache then (cache, cache.cssCache, false)
    else ({ hashCache := hashCode, cssCache := cache.cssCache }, "", true)
  | .ok css =>
    if hashCode == cache.hashCache then (cache, cache.cssCache, false)
    else ({ hashCache := hashCode, cssCache := css }, css, true)

/-- Bool-level absence of the declaration shape that breaks the pruner's
idempotence: no declaration has a color-related property together with a
`url(...)` value. -/
def declNoColorUrl (d : String × String) : Bool :=
  !(colorRelated d.1 && urlMatchL d.2.data)

def nodeNoColorUrl : Node → Bool
  | .rule _ ds => ds.all declNoColorUrl
  | _ => true

def cssNoColorUrl (css : List Node) : Bool :=
  css.all nodeNoColorUrl

/-- A two-entry mapping with an alias chain, used to exercise the alias
resolver on a concrete acyclic input. -/
def mPair : List (String × String) := [("@a-a", "#111"), ("@b-b", "@a-a")]

/-!
Theorems.  Each claim of the specification audit is settled below; the
supporting lemmas precede the claim theorems.
-/

/-- C1 (counterexample): on the input of the claim the colors-map pass
produces the *empty* mapping — in particular it does not map `@a` to `#111`.
The extraction regex of `generateColorMap` (line 67) begins with the lookahead
`(?=\S*['-])`, which demands a quote or hyphen inside a non-whitespace run of
the line, and the lines `@a: #111;`, `@b: @a;`, `@c: 10px;` contain neither. -/
theorem c1_colormap_counterexample :
    generateColorMap "@a: #111;\n@b: @a;\n@c: 10px;\n" [] = [] ∧
    alookup "@a" (generateColorMap "@a: #111;\n@b: @a;\n@c: 10px;\n" []) = none := by
  decide

/-- C1 (amended): on the claim's own input the colors map is empty because the
single-letter names fail the `(?=\S*['-])` lookahead, while the raw pass does
contain `@c -> 10px` (and the unresolved `@a -> #111`, `@b -> @a`); for
variable names containing a hyphen the collector behaves exactly as claimed:
the colors map contains `@a-a -> #111` and the alias `@b-b -> #111` resolved
through `@a-a`, and excludes `@c-c`, while the raw map keeps `@c-c -> 10px`. -/
theorem c1_collector_amended :
    getLessVars "@a: #111;\n@b: @a;\n@c: 10px;\n" =
      [("@a", "#111"), ("@b", "@a"), ("@c", "10px")] ∧
    generateColorMap "@a-a: #111;\n@b-b: @a-a;\n@c-c: 10px;\n" [] =
      [("@a-a", "#111"), ("@b-b", "#111")] ∧
    alookup "@c-c" (generateColorMap "@a-a: #111;\n@b-b: @a-a;\n@c-c: 10px;\n" []) = none ∧
    getLessVars "@a-a: #111;\n@b-b: @a-a;\n@c-c: 10px;\n" =
      [("@a-a", "#111"), ("@b-b", "@a-a"), ("@c-c", "10px")] := by
  decide

/-- The declarations surviving one `cleanDecls` pass are exactly those with no
`url(...)` value and a color-related property: since `Number.isNaN` of a
string is always false, the numeric-value allowance never fires. -/
theorem cleanDecls_fst (ds : List (String × String)) :
    (cleanDecls ds).1 =
      ds.filter (fun d => !(urlMatchL d.2.data) && colorRelated d.1) := by
  induction ds with
  | nil => rfl
  | cons d ds ih =>
    simp only [cleanDecls, numberIsNaN, Bool.not_false, Bool.and_true, Bool.not_not,
      List.filter_cons]
    cases hurl : urlMatchL d.2.data <;> cases hcol : colorRelated d.1 <;>
      simp [ih, hurl, hcol]

/-- The final `removeRule` flag of a `cleanDecls` pass is true exactly when no
declaration of the rule has a color-related property. -/
theorem cleanDecls_snd (ds : List (String × String)) :
    (cleanDecls ds).2 = !(ds.any (fun d => colorRelated d.1)) := by
  induction ds with
  | nil => rfl
  | cons d ds ih =>
    simp only [cleanDecls, numberIsNaN, Bool.not_false, Bool.and_true, List.any_cons]
    cases hcol : colorRelated d.1 <;> simp [ih, hcol]

/-- C2 (counterexample): a declaration with the non-color property `z-index`
and the bare numeric value `10` is removed by the pruner, although the claim
says a dimension-free numeric value is kept. -/
theorem c2_numeric_value_removed :
    reduceCss [Node.rule ".x" [("z-index", "10"), ("color", "#fff")]] =
      [Node.rule ".x" [("color", "#fff")]] := by
  decide

/-- C2 (amended): every declaration whose property name contains none of
"color", "background", "border", "box-shadow" is removed unconditionally —
the numeric-value allowance of the claim is dead code, because the guard
`!Number.isNaN(decl.value)` is applied to a string and `Number.isNaN` without
coercion is always false on strings.  The surviving declarations of a rule are
exactly those with a color-related property and no `url(...)` value. -/
theorem c2_pruner_amended (ds : List (String × String)) :
    (cleanDecls ds).1 =
      ds.filter (fun d => !(urlMatchL d.2.data) && colorRelated d.1) :=
  cleanDecls_fst ds

/-- C5 (counterexample): the index-10 shade rule does not carry the shade-10
ramp expression; `getShade` captures only a single digit (`/(.*)-(\d)/`), so
`@primary-10` is truncated to shade 1. -/
theorem c5_shade_ten_truncated :
    getShade "@primary-10" = specShadeExpr "primary-color" 1 ∧
    getShade "@primary-10" ≠ specShadeExpr "primary-color" 10 := by
  decide

/-- C5 (amended): nine shade-marker rules are emitted with indices
1,2,3,4,5,7,8,9,10 (index 6 skipped), and for indices 1-5 and 7-9 the rule
value is the `colorPalette` ramp expression with that index; for index 10,
however, the single-digit capture of `getShade` truncates `-10` to `-1`, so
the emitted value is the shade-1 expression.  Verified for the primary
variable and a representative non-primary variable. -/
theorem c5_shade_rules_amended :
    shadeRules "@primary-color" =
      [("primary-1", specShadeExpr "primary-color" 1),
       ("primary-2", specShadeExpr "primary-color" 2),
       ("primary-3", specShadeExpr "primary-color" 3),
       ("primary-4", specShadeExpr "primary-color" 4),
       ("primary-5", specShadeExpr "primary-color" 5),
       ("primary-7", specShadeExpr "primary-color" 7),
       ("primary-8", specShadeExpr "primary-color" 8),
       ("primary-9", specShadeExpr "primary-color" 9),
       ("primary-10", specShadeExpr "primary-color" 1)] ∧
    shadeRules "@link-color" =
      [("link-color-1", specShadeExpr "link-color" 1),
       ("link-color-2", specShadeExpr "link-color" 2),
       ("link-color-3", specShadeExpr "link-color" 3),
       ("link-color-4", specShadeExpr "link-color" 4),
       ("link-color-5", specShadeExpr "link-color" 5),
       ("link-color-7", specShadeExpr "link-color" 7),
       ("link-color-8", specShadeExpr "link-color" 8),
       ("link-color-9", specShadeExpr "link-color" 9),
       ("link-color-10", specShadeExpr "link-color" 1)] := by
  decide

/-- C6: with no extra patterns the classifier accepts the six color forms of
the claim and rejects the four non-colors (`undefined` modelled as `none`). -/
theorem c6_color_classifier_examples :
    isValidColor (some "#fff") [] = true ∧
    isValidColor (some "#ffffff") [] = true ∧
    isValidColor (some "#ffff") [] = true ∧
    isValidColor (some "#ffffffff") [] = true ∧
    isValidColor (some "rgba(0,0,0,0.5)") [] = true ∧
    isValidColor (some "hsl(10, 50%, 50%)") [] = true ∧
    isValidColor (some "20px") [] = false ∧
    isValidColor (some "") [] = false ∧
    isValidColor none [] = false ∧
    isValidColor (some "10") [] = false := by
  decide

/-- C10 (counterexample): the universal claim fails — `"#1px"` has a
3-character remainder beginning with the hex digit `1`, yet `isValidColor`
returns false because the `px` substring check fires first; likewise
`"#0xzz"` has a 4-character remainder beginning with the hex digit `0`, yet
`parseInt` strips the `0x` prefix and finds no digits.  The claim's own
example `"#1zz"` is indeed accepted. -/
theorem c10_hex_prefix_counterexample :
    isValidColor (some "#1px") [] = false ∧
    isValidColor (some "#0xzz") [] = false ∧
    isValidColor (some "#1zz") [] = true := by
  decide

/-- `reduceCss` (three sequential walks) coincides with the per-node pass. -/
theorem reduceCss_eq (css : List Node) : reduceCss css = reduceNodes css := by
  induction css with
  | nil => rfl
  | cons n css ih =>
    have h : reduceCss (n :: css) = reduceNode n ++ reduceCss css := by
      cases n with
      | atRule t =>
        simp [reduceCss, reduceNode, isAtRule, List.filter_cons]
      | comment t =>
        simp [reduceCss, reduceNode, isAtRule, isComment, cleanRule, concatMapNodes,
          List.filter_cons]
      | rule sel ds =>
        by_cases hs : startsWithL ".main-color .palatte-".data sel.data
        · simp [reduceCss, reduceNode, isAtRule, isComment, cleanRule, concatMapNodes,
            List.filter_cons, List.filter_append, hs]
        · by_cases hr : (cleanDecls ds).2 = true <;>
            simp [reduceCss, reduceNode, isAtRule, isComment, cleanRule, concatMapNodes,
              List.filter_cons, List.filter_append, hs, hr]
    rw [h, ih]
    rfl

theorem reduceNodes_append (a b : List Node) :
    reduceNodes (a ++ b) = reduceNodes a ++ reduceNodes b := by
  induction a with
  | nil => rfl
  | cons n a ih => simp [reduceNodes, ih]

/-- One node whose declarations never pair a color-related property with a
`url(...)` value is a fixed point of the pruning pass. -/
theorem reduceNode_idem (n : Node) (h : nodeNoColorUrl n = true) :
    reduceNodes (reduceNode n) = reduceNode n := by
  cases n with
  | atRule t => rfl
  | comment t => rfl
  | rule sel ds =>
    by_cases hs : startsWithL ".main-color .palatte-".data sel.data
    · simp [reduceNode, hs, reduceNodes]
    · by_cases hr : (cleanDecls ds).2 = true
      · simp [reduceNode, hs, hr, reduceNodes]
      · have hds : (cleanDecls ds).1 =
            ds.filter (fun d => !(urlMatchL d.2.data) && colorRelated d.1) :=
          cleanDecls_fst ds
        have hany : ds.any (fun d => colorRelated d.1) = true := by
          cases hx : ds.any (fun d => colorRelated d.1)
          · exact absurd (by rw [cleanDecls_snd, hx]; rfl) hr
          · rfl
        obtain ⟨d, hdmem, hdcol⟩ := List.any_eq_true.mp hany
        have hdurl : urlMatchL d.2.data = false := by
          simp only [nodeNoColorUrl] at h
          have hdn := (List.all_eq_true.mp h) d hdmem
          cases hu : urlMatchL d.2.data
          · rfl
          · rw [declNoColorUrl, hdcol, hu] at hdn
            exact absurd hdn (by decide)
        have hdkeep : d ∈ (cleanDecls ds).1 := by
          rw [hds]
          exact List.mem_filter.mpr ⟨hdmem, by rw [hdurl, hdcol]; rfl⟩
        have hfst2 : (cleanDecls ((cleanDecls ds).1)).1 = (cleanDecls ds).1 := by
          rw [cleanDecls_fst ((cleanDecls ds).1)]
          refine List.filter_eq_self.mpr ?_
          intro a ha
          rw [hds] at ha
          exact (List.mem_filter.mp ha).2
        have hsnd2 : (cleanDecls ((cleanDecls ds).1)).2 = false := by
          rw [cleanDecls_snd]
          rw [List.any_eq_true.mpr ⟨d, hdkeep, hdcol⟩]
          rfl
        simp only [reduceNode, hs, hr, if_false, ite_false]
        simp only [reduceNodes, reduceNode, hs, hsnd2, hfst2]
        simp [hr]

theorem reduceNodes_idem (css : List Node) (h : cssNoColorUrl css = true) :
    reduceNodes (reduceNodes css) = reduceNodes css := by
  induction css with
  | nil => rfl
  | cons n css ih =>
    rw [cssNoColorUrl, List.all_cons, Bool.and_eq_true] at h
    calc reduceNodes (reduceNodes (n :: css))
        = reduceNodes (reduceNode n ++ reduceNodes css) := rfl
      _ = reduceNodes (reduceNode n) ++ reduceNodes (reduceNodes css) :=
          reduceNodes_append _ _
      _ = reduceNode n ++ reduceNodes css := by
          rw [reduceNode_idem n h.1, ih h.2]

/-- C7 (counterexample): the pruner is not idempotent.  A rule whose only
declaration has a color-related property and a `url(...)` value keeps the rule
alive (the `else` branch clearing `removeRule` runs even for the removed
declaration), so one pass yields an empty rule and a second pass deletes it. -/
theorem c7_prune_not_idempotent :
    reduceCss [Node.rule ".x" [("color", "url(a)")]] = [Node.rule ".x" []] ∧
    reduceCss (reduceCss [Node.rule ".x" [("color", "url(a)")]]) = [] ∧
    reduceCss (reduceCss [Node.rule ".x" [("color", "url(a)")]]) ≠
      reduceCss [Node.rule ".x" [("color", "url(a)")]] := by
  decide

/-- C7 (amended): the pruner is idempotent on every stylesheet in which no
declaration carries both a color-related property and a `url(...)` value (the
only shape that produces an empty surviving rule). -/
theorem c7_prune_idempotent_amended (css : List Node) (h : cssNoColorUrl css = true) :
    reduceCss (reduceCss css) = reduceCss css := by
  rw [reduceCss_eq css, reduceCss_eq (reduceNodes css)]
  exact reduceNodes_idem css h

theorem c7_prune_idempotent_witness :
    cssNoColorUrl [Node.rule ".btn" [("color", "#fff"), ("margin", "0")],
      Node.atRule "media", Node.comment "note"] = true ∧
    reduceCss (reduceCss [Node.rule ".btn" [("color", "#fff"), ("margin", "0")],
      Node.atRule "media", Node.comment "note"]) =
      reduceCss [Node.rule ".btn" [("color", "#fff"), ("margin", "0")],
        Node.atRule "media", Node.comment "note"] :=
  ⟨by decide, c7_prune_idempotent_amended _ (by decide)⟩

/-- Every entry of an updated map either carries the written value or was
already present. -/
theorem aset_mem (m : List (String × String)) (k v : String) (p : String × String)
    (h : p ∈ aset m k v) : p.2 = v ∨ p ∈ m := by
  induction m with
  | nil =>
    simp [aset] at h
    subst h
    exact Or.inl rfl
  | cons q rest ih =>
    obtain ⟨a, b⟩ := q
    by_cases ha : a = k
    · rw [aset, if_pos ha] at h
      rcases List.mem_cons.mp h with rfl | h2
      · exact Or.inl rfl
      · exact Or.inr (List.mem_cons_of_mem _ h2)
    · rw [aset, if_neg ha] at h
      rcases List.mem_cons.mp h with rfl | h2
      · exact Or.inr (List.mem_cons_self _ _)
      · rcases ih h2 with h3 | h3
        · exact Or.inl h3
        · exact Or.inr (List.mem_cons_of_mem _ h3)

theorem noBlackWhite_mk (k v : String) :
    noBlackWhite (k, v) = (!(v == "#000000") && !(v == "#ffffff")) := rfl

theorem aset_all_noBlackWhite (m : List (String × String)) (k v : String)
    (hm : m.all noBlackWhite = true) (hv : noBlackWhite (k, v) = true) :
    (aset m k v).all noBlackWhite = true := by
  rw [List.all_eq_true] at hm ⊢
  intro p hp
  rcases aset_mem m k v p hp with h2 | h2
  · rw [noBlackWhite] at hv ⊢
    rw [h2]
    exact hv
  · exact hm p h2

/-- The color chosen for a non-primary variable survived the `while` guard. -/
theorem pickColor_badDraw (rcv : List (String × String)) :
    ∀ (draws : List String) (c : String) (rest : List String),
      pickColor rcv draws = some (c, rest) → badDraw rcv c = false := by
  intro draws
  induction draws with
  | nil => intro c rest h; exact absurd h (by simp [pickColor])
  | cons d ds ih =>
    intro c rest h
    rw [pickColor] at h
    by_cases hb : badDraw rcv d = true
    · rw [if_pos hb] at h
      exact ih c rest h
    · rw [if_neg hb] at h
      obtain ⟨rfl, rfl⟩ : d = c ∧ ds = rest := by
        refine ⟨?_, ?_⟩ <;> cases h <;> rfl
      exact Bool.not_eq_true _ ▸ hb

/-- C3 (counterexample): the loop does not re-roll on a collision with an
already-assigned non-sentinel marker (two variables receive the same color
`#abcdef`), and it happily assigns the reserved primary sentinel `#123456` to
a non-primary variable when the sentinel is not yet taken — both contradicting
the claimed invariants. -/
theorem c3_markers_counterexample :
    assignMarkers ["@aa-color", "@bb-color"] ["#abcdef", "#abcdef"] [] [] =
      some ([("@aa-color", "#abcdef"), ("@bb-color", "#abcdef")],
        [("#abcdef", "@bb-color")]) ∧
    assignMarkers ["@aa-color"] ["#123456"] [] [] =
      some ([("@aa-color", "#123456")], [("#123456", "@aa-color")]) := by
  decide

/-- C3 (amended): what the loop does guarantee is that no variable is ever
assigned pure black `#000000` or pure white `#ffffff`: the primary variable
receives the fixed sentinel `#123456`, and every other variable's draw is
re-rolled while it is black, white, or the already-assigned sentinel.
Collisions between two ordinary draws and an unassigned sentinel are not
re-rolled (see the counterexample). -/
theorem c3_markers_amended :
    ∀ (vars draws : List String) (rc rcv : List (String × String))
      (res : List (String × String) × List (String × String)),
      rc.all noBlackWhite = true →
      assignMarkers vars draws rc rcv = some res →
      res.1.all noBlackWhite = true := by
  intro vars
  induction vars with
  | nil =>
    intro draws rc rcv res hrc h
    rw [assignMarkers] at h
    cases h
    exact hrc
  | cons v vs ih =>
    intro draws rc rcv res hrc h
    cases draws with
    | nil => exact absurd h (by simp [assignMarkers])
    | cons c0 rest =>
      rw [assignMarkers] at h
      by_cases hv : (v == "@primary-color") = true
      · rw [if_pos hv] at h
        refine ih rest _ _ res ?_ h
        exact aset_all_noBlackWhite rc v PRIMARY_RANDOM_COLOR hrc
          (by rw [noBlackWhite_mk]; decide)
      · rw [if_neg hv] at h
        cases hp : pickColor rcv (c0 :: rest) with
        | none => rw [hp] at h; exact absurd h (by simp)
        | some pr =>
          obtain ⟨color, rest2⟩ := pr
          rw [hp] at h
          have hbd := pickColor_badDraw rcv (c0 :: rest) color rest2 hp
          have hnb : noBlackWhite (v, color) = true := by
            rw [badDraw] at hbd
            rw [noBlackWhite]
            rcases Bool.or_eq_false_iff.mp hbd with ⟨hbd1, hbd3⟩
            rcases Bool.or_eq_false_iff.mp hbd1 with ⟨_, hbd2⟩
            rw [hbd2, hbd3]
            rfl
          exact ih rest2 _ _ res (aset_all_noBlackWhite rc v color hrc hnb) h

theorem c3_markers_amended_witness :
    assignMarkers ["@aa-color"] ["#000000", "#ffffff", "#abcdef"] [] [] =
      some ([("@aa-color", "#abcdef")], [("#abcdef", "@aa-color")]) ∧
    [("@aa-color", "#abcdef")].all noBlackWhite = true :=
  ⟨by decide,
   c3_markers_amended ["@aa-color"] ["#000000", "#ffffff", "#abcdef"] [] []
     ([("@aa-color", "#abcdef")], [("#abcdef", "@aa-color")]) (by decide) (by decide)⟩

/-- C4 (counterexample): when the pipeline fails after the cache check, the
call does return the empty string and leaves the cached stylesheet text alone,
but the stored content hash has already been overwritten (line 423 runs before
any compilation), so the cache is *not* left unchanged as claimed.  (The next
call with identical content will therefore serve the stale stylesheet.) -/
theorem c4_cache_mutated_counterexample :
    (generateThemeStep ⟨"h0", "c0"⟩ "h1" .lateFail).2.1 = "" ∧
    (generateThemeStep ⟨"h0", "c0"⟩ "h1" .lateFail).1.cssCache = "c0" ∧
    (generateThemeStep ⟨"h0", "c0"⟩ "h1" .lateFail).1.hashCache = "h1" ∧
    (generateThemeStep ⟨"h0", "c0"⟩ "h1" .lateFail).1 ≠ GenCache.mk "h0" "c0" := by
  decide

/-- C4 (amended): every uncaught failure yields the empty string instead of
raising; a failure before the content hash is computed leaves the whole cache
unchanged, and a failure after the cache check leaves the cached stylesheet
text unchanged but has already overwritten the stored hash with the new
content hash. -/
theorem c4_soft_failure_amended (cache : GenCache) (h : String)
    (hne : (h == cache.hashCache) = false) :
    (generateThemeStep cache h .earlyFail).2.1 = "" ∧
    (generateThemeStep cache h .earlyFail).1 = cache ∧
    (generateThemeStep cache h .lateFail).2.1 = "" ∧
    (generateThemeStep cache h .lateFail).1.cssCache = cache.cssCache ∧
    (generateThemeStep cache h .lateFail).1.hashCache = h := by
  simp [generateThemeStep, hne]

theorem c4_soft_failure_witness :
    ("h1" == "h0") = false ∧
    ((generateThemeStep ⟨"h0", "c0"⟩ "h1" .earlyFail).2.1 = "" ∧
     (generateThemeStep ⟨"h0", "c0"⟩ "h1" .earlyFail).1 = GenCache.mk "h0" "c0" ∧
     (generateThemeStep ⟨"h0", "c0"⟩ "h1" .lateFail).2.1 = "" ∧
     (generateThemeStep ⟨"h0", "c0"⟩ "h1" .lateFail).1.cssCache =
       (GenCache.mk "h0" "c0").cssCache ∧
     (generateThemeStep ⟨"h0", "c0"⟩ "h1" .lateFail).1.hashCache = "h1") :=
  ⟨by decide, c4_soft_failure_amended ⟨"h0", "c0"⟩ "h1" (by decide)⟩

/-- C8: after a successful run produced `S` under content hash `h`, the cache
holds `(h, S)`; a later call whose consumer contents hash to the same `h`
returns exactly the cached `S` without running the pipeline (whatever that
pipeline would have done), and a later call with a different content hash does
not take the cache short-circuit: the pipeline runs again.  (The source
compares sha1 hashes, so "different contents" is modelled as "different hash
value".) -/
theorem c8_cache_roundtrip (cache : GenCache) (h h2 S T : String)
    (hfresh : (h == cache.hashCache) = false) (hdiff : (h2 == h) = false) :
    (generateThemeStep cache h (.ok S)).1 = ⟨h, S⟩ ∧
    (generateThemeStep cache h (.ok S)).2.1 = S ∧
    generateThemeStep ⟨h, S⟩ h (.ok T) = (⟨h, S⟩, S, false) ∧
    generateThemeStep ⟨h, S⟩ h .lateFail = (⟨h, S⟩, S, false) ∧
    (generateThemeStep ⟨h, S⟩ h2 (.ok T)).2.2 = true ∧
    (generateThemeStep ⟨h, S⟩ h2 .lateFail).2.2 = true := by
  simp [generateThemeStep, hfresh, hdiff]

/-- Chains compose: following `a + b` steps is following `a` then `b`. -/
theorem iterChain_add (m : List (String × String)) (a b : Nat) (v : String) :
    iterChain m (a + b) v = (iterChain m a v).bind (fun w => iterChain m b w) := by
  induction a generalizing v with
  | zero => simp [iterChain]
  | succ a ih =>
    rw [Nat.succ_add]
    simp only [iterChain]
    cases halo : alookup v m with
    | none => simp
    | some c => simp [ih c]

theorem alookup_isSome_mem (m : List (String × String)) (k : String)
    (h : (alookup k m).isSome = true) : k ∈ m.map Prod.fst := by
  induction m with
  | nil => simp [alookup] at h
  | cons p rest ih =>
    obtain ⟨a, b⟩ := p
    by_cases ha : a = k
    · subst ha
      simp
    · rw [alookup, if_neg ha] at h
      simpa using Or.inr (ih h)

/-- One recursion step of `getColor` when the looked-up value is again a key. -/
theorem getColorF_step (fuel : Nat) (v cv : String) (m : List (String × String))
    (halo : alookup v m = some cv) (hc : (alookup cv m).isSome = true) :
    getColorF (fuel + 1) v m = getColorF fuel cv m := by
  simp [getColorF, halo, hc]

/-- Main induction for the termination of `getColor`: with acyclic chains, the
recursion starting from a key `v` returns a terminal non-key value reached by
the chain, as long as the fuel plus the number of names already visited
exceeds the size of the mapping.  `seen` collects the names already visited:
they are pairwise distinct keys, each of which reaches `v`. -/
theorem getColorF_sound (m : List (String × String)) (hacyc : AcyclicMap m) :
    ∀ (fuel : Nat) (v : String) (seen : List String),
      seen.Nodup →
      (∀ x ∈ seen, (alookup x m).isSome = true) →
      (∀ x ∈ seen, ∃ n, 0 < n ∧ iterChain m n x = some v) →
      v ∉ seen →
      (alookup v m).isSome = true →
      m.length + 1 ≤ fuel + seen.length →
      ∃ c, getColorF fuel v m = some (some c) ∧ alookup c m = none ∧
        ∃ n, 0 < n ∧ iterChain m n v = some c := by
  intro fuel
  induction fuel with
  | zero =>
    intro v seen hnd hkeys _hreach hvn hv hbound
    exfalso
    have hsub : ∀ x ∈ v :: seen, x ∈ m.map Prod.fst := by
      intro x hx
      rcases List.mem_cons.mp hx with rfl | hx2
      · exact alookup_isSome_mem m x hv
      · exact alookup_isSome_mem m x (hkeys x hx2)
    have hndall : (v :: seen).Nodup := List.nodup_cons.mpr ⟨hvn, hnd⟩
    have hcard1 : (v :: seen).toFinset.card = (v :: seen).length :=
      List.toFinset_card_of_nodup hndall
    have hsubF : (v :: seen).toFinset ⊆ (m.map Prod.fst).toFinset := by
      intro x hx
      rw [List.mem_toFinset] at hx ⊢
      exact hsub x hx
    have hle := Finset.card_le_card hsubF
    have hle2 := List.toFinset_card_le (m.map Prod.fst)
    rw [hcard1] at hle
    simp only [List.length_cons, List.length_map] at hle hle2 hbound
    omega
  | succ fuel ih =>
    intro v seen hnd hkeys hreach hvn hv hbound
    obtain ⟨cv, halo⟩ := Option.isSome_iff_exists.mp hv
    by_cases hc : (alookup cv m).isSome = true
    · have hstep1 : iterChain m 1 v = some cv := by simp [iterChain, halo]
      have hreach2 : ∀ x ∈ v :: seen, ∃ n, 0 < n ∧ iterChain m n x = some cv := by
        intro x hx
        rcases List.mem_cons.mp hx with rfl | hx2
        · exact ⟨1, Nat.one_pos, hstep1⟩
        · obtain ⟨n, hn, hch⟩ := hreach x hx2
          refine ⟨n + 1, by omega, ?_⟩
          rw [iterChain_add m n 1 x, hch]
          simpa using hstep1
      have hcvnotin : cv ∉ v :: seen := by
        intro hmem
        obtain ⟨n, hn, hch⟩ := hreach2 cv hmem
        exact hacyc cv n hn hch
      have hkeys2 : ∀ x ∈ v :: seen, (alookup x m).isSome = true := by
        intro x hx
        rcases List.mem_cons.mp hx with rfl | hx2
        · exact hv
        · exact hkeys x hx2
      obtain ⟨c, hrun, hterm, n, hn, hch⟩ :=
        ih cv (v :: seen) (List.nodup_cons.mpr ⟨hvn, hnd⟩) hkeys2 hreach2 hcvnotin hc
          (by simp only [List.length_cons]; omega)
      refine ⟨c, ?_, hterm, 1 + n, by omega, ?_⟩
      · simp [getColorF, halo, hc, hrun]
      · rw [iterChain_add m 1 n v, hstep1]
        simpa using hch
    · refine ⟨cv, ?_, ?_, 1, Nat.one_pos, by simp [iterChain, halo]⟩
      · simp [getColorF, halo, hc]
      · cases hcc : alookup cv m with
        | none => rfl
        | some w => rw [hcc] at hc; simp at hc

/-- C9: for every mapping whose variable-reference chains are acyclic,
`getColor` terminates (the fuel `m.length + 2` bounds the recursion depth) and
returns the terminal non-reference value reached by following the chain from
the start name — or `undefined` when the start name is not bound at all. -/
theorem c9_getcolor_terminates (m : List (String × String)) (varName : String)
    (hacyc : AcyclicMap m) :
    ∃ r, getColorF (m.length + 2) varName m = some r ∧
      ((r = none ∧ alookup varName m = none) ∨
       (∃ c, r = some c ∧ alookup c m = none ∧
         ∃ n, 0 < n ∧ iterChain m n varName = some c)) := by
  cases halo : alookup varName m with
  | none =>
    refine ⟨none, ?_, Or.inl ⟨rfl, rfl⟩⟩
    simp [getColorF, halo]
  | some cv =>
    by_cases hc : (alookup cv m).isSome = true
    · have hstep1 : iterChain m 1 varName = some cv := by simp [iterChain, halo]
      obtain ⟨c, hrun, hterm, n, hn, hch⟩ :=
        getColorF_sound m hacyc (m.length + 1) cv [varName]
          (List.nodup_singleton _)
          (by intro x hx; rw [List.mem_singleton] at hx; subst hx; simp [halo])
          (by
            intro x hx
            rw [List.mem_singleton] at hx
            subst hx
            exact ⟨1, Nat.one_pos, hstep1⟩)
          (by
            intro hmem
            rw [List.mem_singleton] at hmem
            subst hmem
            exact hacyc cv 1 Nat.one_pos hstep1)
          hc
          (by simp only [List.length_singleton]; omega)
      refine ⟨some c, ?_, Or.inr ⟨c, rfl, hterm, 1 + n, by omega, ?_⟩⟩
      · rw [getColorF_step (m.length + 1) varName cv m halo hc, hrun]
      · rw [iterChain_add m 1 n varName, hstep1]
        simpa using hch
    · refine ⟨some cv, ?_, Or.inr ⟨cv, rfl, ?_, 1, Nat.one_pos, by simp [iterChain, halo]⟩⟩
      · simp [getColorF, halo, hc]
      · cases hcc : alookup cv m with
        | none => rfl
        | some w => rw [hcc] at hc; simp at hc

/-- The two-entry alias map `@b-b -> @a-a -> #111` has acyclic chains. -/
theorem mPair_acyclic : AcyclicMap mPair := by
  have h3 : ∀ w, iterChain mPair 3 w = none := by
    intro w
    by_cases h1 : "@a-a" = w
    · subst h1; decide
    · by_cases h2 : "@b-b" = w
      · subst h2; decide
      · have halo : alookup w mPair = none := by
          rw [mPair, alookup, if_neg h1, alookup, if_neg h2, alookup]
        simp [iterChain, halo]
  intro v n hn
  rcases n with _ | _ | _ | k
  · omega
  · by_cases h1 : "@a-a" = v
    · subst h1; decide
    · by_cases h2 : "@b-b" = v
      · subst h2; decide
      · have halo : alookup v mPair = none := by
          rw [mPair, alookup, if_neg h1, alookup, if_neg h2, alookup]
        simp [iterChain, halo]
  · by_cases h1 : "@a-a" = v
    · subst h1; decide
    · by_cases h2 : "@b-b" = v
      · subst h2; decide
      · have halo : alookup v mPair = none := by
          rw [mPair, alookup, if_neg h1, alookup, if_neg h2, alookup]
        simp [iterChain, halo]
  · intro heq
    rw [show k + 1 + 1 + 1 = 3 + k by omega, iterChain_add, h3 v] at heq
    simp at heq

theorem c9_getcolor_terminates_witness :
    AcyclicMap mPair ∧
    (∃ r, getColorF (mPair.length + 2) "@b-b" mPair = some r ∧
      ((r = none ∧ alookup "@b-b" mPair = none) ∨
       (∃ c, r = some c ∧ alookup c mPair = none ∧
         ∃ n, 0 < n ∧ iterChain mPair n "@b-b" = some c))) :=
  ⟨mPair_acyclic, c9_getcolor_terminates mPair "@b-b" mPair_acyclic⟩

theorem hex_not_space (c : Char) (h : isHexDigit c = true) : isJsSpace c = false := by
  by_contra hne
  rw [Bool.not_eq_false] at hne
  simp only [isJsSpace, Bool.or_eq_true, beq_iff_eq] at hne
  rcases hne with ((((h1 | h1) | h1) | h1) | h1) | h1 <;> subst h1 <;>
    exact absurd h (by decide)

theorem hex_not_sign (c : Char) (h : isHexDigit c = true) :
    (c == '+' || c == '-') = false := by
  by_contra hne
  rw [Bool.not_eq_false, Bool.or_eq_true, beq_iff_eq, beq_iff_eq] at hne
  rcases hne with h1 | h1 <;> subst h1 <;> exact absurd h (by decide)

/-- `parseInt(s, 16)` is a number (not `NaN`) whenever `s` begins with a hex
digit, except that a `0x`/`0X` prefix is stripped first and must then be
followed by a hex digit. -/
theorem parseInt16_hex_head (rest : List Char)
    (hhex : ∃ d ds, rest = d :: ds ∧ isHexDigit d = true)
    (h0x : ∀ c cs, rest = '0' :: c :: cs → (c = 'x' ∨ c = 'X') →
      ∃ e es, cs = e :: es ∧ isHexDigit e = true) :
    parseInt16IsNaNL rest = false := by
  obtain ⟨d, ds, hrest, hd⟩ := hhex
  subst hrest
  have hdspace : isJsSpace d = false := hex_not_space d hd
  have hdsign : (d == '+' || d == '-') = false := hex_not_sign d hd
  rw [parseInt16IsNaNL]
  simp only [List.dropWhile_cons, hdspace, Bool.false_eq_true, if_false, hdsign]
  cases ds with
  | nil => simp [hd]
  | cons c2 rest2 =>
    by_cases h0 : (d == '0' && (c2 == 'x' || c2 == 'X')) = true
    · rw [Bool.and_eq_true, beq_iff_eq, Bool.or_eq_true, beq_iff_eq, beq_iff_eq] at h0
      obtain ⟨rfl, hx⟩ := h0
      obtain ⟨e, es, hcs, he⟩ := h0x c2 rest2 rfl hx
      subst hcs
      simp only [beq_self_eq_true, Bool.true_and, if_pos]
      have hxx : (c2 == 'x' || c2 == 'X') = true := by
        rcases hx with rfl | rfl <;> simp
      simp [hxx, he]
    · rw [Bool.not_eq_true] at h0
      simp [h0, hd]

/-- C10 (amended): for every string beginning with `#` whose remainder has
length 3, 4, 6 or 8 and starts with a hexadecimal digit, `isValidColor`
returns true even when the remaining characters are not hex digits, because
`parseInt` only parses a leading prefix — provided the string does not
contain the substring `px` (which the earlier `px` check rejects outright)
and the remainder does not start with a `0x`/`0X` prefix followed by a
non-hex character (which `parseInt` strips before looking for digits). -/
theorem c10_hex_prefix_amended (rest : List Char)
    (hlen : [3, 4, 6, 8].contains rest.length = true)
    (hhex : ∃ d ds, rest = d :: ds ∧ isHexDigit d = true)
    (hnopx : containsL "px".data ('#' :: rest) = false)
    (h0x : ∀ c cs, rest = '0' :: c :: cs → (c = 'x' ∨ c = 'X') →
      ∃ e es, cs = e :: es ∧ isHexDigit e = true) :
    isValidColor (some (chStr ('#' :: rest))) [] = true := by
  have hdata : (chStr ('#' :: rest)).data = '#' :: rest := rfl
  rw [isValidColor]
  rw [hdata]
  cases hrgb : containsL "rgb".data ('#' :: rest) with
  | true => simp [hrgb]
  | false =>
    cases hpal : (containsL "colorPalette".data ('#' :: rest) ||
        containsL "fade".data ('#' :: rest)) with
    | true => simp [hrgb, hnopx, hpal]
    | false =>
      simp only [hrgb, hnopx, hpal, List.isEmpty_cons, Bool.false_eq_true, if_false]
      rw [parseInt16_hex_head rest hhex h0x, hlen]
      rfl

theorem c10_hex_prefix_witness :
    isValidColor (some (chStr ('#' :: "1zz".data))) [] = true :=
  c10_hex_prefix_amended "1zz".data (by decide)
    ⟨'1', "zz".data, rfl, by decide⟩ (by decide)
    (fun c cs hcs _hx => by
      injection hcs with h1 _
      exact absurd h1 (by decide))

theorem c8_cache_roundtrip_witness :
    ("h1" == "h0") = false ∧ ("h2" == "h1") = false ∧
    ((generateThemeStep ⟨"h0", "c0"⟩ "h1" (.ok "S")).1 = ⟨"h1", "S"⟩ ∧
     (generateThemeStep ⟨"h0", "c0"⟩ "h1" (.ok "S")).2.1 = "S" ∧
     generateThemeStep ⟨"h1", "S"⟩ "h1" (.ok "T") = (⟨"h1", "S"⟩, "S", false) ∧
     generateThemeStep ⟨"h1", "S"⟩ "h1" .lateFail = (⟨"h1", "S"⟩, "S", false) ∧
     (generateThemeStep ⟨"h1", "S"⟩ "h2" (.ok "T")).2.2 = true ∧
     (generateThemeStep ⟨"h1", "S"⟩ "h2" .lateFail).2.2 = true) :=
  ⟨by decide, by decide,
   c8_cache_roundtrip ⟨"h0", "c0"⟩ "h1" "h2" "S" "T" (by decide) (by decide)⟩

end AntdTheme
